import Mathlib

/-!
Verification of the `ae-mcp` type declarations.

The repository declares a compile-time numeric range constraint utility
(`NumericRange` in `src/types/primitives.ts`), a handful of range type
aliases built from it, branded fallback numeric types for wide ranges, and
enumerations mapping symbolic names to the integer codes of the external
host (the layer module).

Shallow embedding conventions:
* A TypeScript union of numeric literal types is modelled as a `Finset ℕ`
  (the literals produced by `NumericRange` are tuple lengths, hence
  naturals); membership of a general numeric literal is tested through
  `memberZ` (integers) and `memberR` (arbitrary numbers).
* The type-level tail recursion of `NumericRange` is modelled with an
  explicit fuel bounded by the host checker's instantiation-depth limit;
  running out of fuel is a compile-time rejection, modelled as `none`.
* Branded types (`number & \x7b __brand: ... \x7d`) are nominal wrappers
  around an unconstrained number; they carry no bound invariant.
* A `declare enum` becomes an inductive type with a `code` function giving
  each symbolic name its declared integer initializer, and a `docCode`
  function giving the integer listed in the member's doc comment
  (`@remarks Integer value: N`), where the source carries one.
-/

/-- The host type-checker's instantiation-depth limit for tail-recursive
conditional types: a `NumericRange` whose upper bound requires more
instantiation steps than this fails to compile. -/
def tsRecursionLimit : ℕ := 1000

/-- One instantiation step of the `NumericRange` conditional type.
State: `len` is `ARR['length']` (the tuple `ARR` only ever matters through
its length, since every element is the literal `1`), `acc` is the
accumulator union `ACC`.  The body mirrors the source:
`ARR['length'] extends END ? ACC | START | END :
 NumericRange<START, END, [...ARR, 1],
              ARR[START] extends undefined ? ACC : ACC | ARR['length']>`
where `ARR[START]` is defined (not `undefined`) exactly when
`START < ARR['length']`. -/
def numericRangeGo (start stop : ℕ) : ℕ → ℕ → Finset ℕ → Option (Finset ℕ)
  | 0, _, _ => none
  | fuel + 1, len, acc =>
    if len = stop then some (insert start (insert stop acc))
    else numericRangeGo start stop fuel (len + 1)
      (if start < len then insert len acc else acc)

/-- `NumericRange<START, END>`: instantiation starts from the empty tuple
(`ARR = []`, `len = 0`) and the empty union (`ACC = never`, `acc = ∅`). -/
def NumericRange (start stop : ℕ) : Option (Finset ℕ) :=
  numericRangeGo start stop tsRecursionLimit 0 ∅

/-- `export type Percentage = NumericRange<0, 100>` -/
def Percentage : Option (Finset ℕ) := NumericRange 0 100

/-- `export type OpacityRange = NumericRange<0, 100>` -/
def OpacityRange : Option (Finset ℕ) := NumericRange 0 100

/-- `export type LabelIndex = NumericRange<0, 16>` -/
def LabelIndex : Option (Finset ℕ) := NumericRange 0 16

/-- `export type ColorComponent = NumericRange<0, 1>` -/
def ColorComponent : Option (Finset ℕ) := NumericRange 0 1

/-- `export type ConeAngleRange = NumericRange<1, 179>` -/
def ConeAngleRange : Option (Finset ℕ) := NumericRange 1 179

/-- `export type IORRange = NumericRange<1, 3>` -/
def IORRange : Option (Finset ℕ) := NumericRange 1 3

/-- The table of every `NumericRange` instantiation among the type aliases
of `src/types/primitives.ts`: name, lower bound, upper bound. -/
def rangeAliases : List (String × ℕ × ℕ) :=
  [("Percentage", 0, 100),
   ("OpacityRange", 0, 100),
   ("LabelIndex", 0, 16),
   ("ColorComponent", 0, 1),
   ("ConeAngleRange", 1, 179),
   ("IORRange", 1, 3)]

/-- Membership of a natural-number literal in a (possibly rejected)
`NumericRange` type. -/
def memberN (n : ℕ) (o : Option (Finset ℕ)) : Prop :=
  match o with
  | none => False
  | some S => n ∈ S

/-- Membership of an integer literal in a (possibly rejected)
`NumericRange` type: the produced union consists of natural-number
literals, so an integer belongs to it exactly when it equals one of them. -/
def memberZ (n : ℤ) (o : Option (Finset ℕ)) : Prop :=
  match o with
  | none => False
  | some S => ∃ m ∈ S, (m : ℤ) = n

/-- Membership of an arbitrary numeric literal in a (possibly rejected)
`NumericRange` type. -/
def memberR (x : ℝ) (o : Option (Finset ℕ)) : Prop :=
  match o with
  | none => False
  | some S => ∃ m ∈ S, (m : ℝ) = x

/-- `export type Color = [ColorComponent, ColorComponent, ColorComponent]`:
the admissible triples of numbers. -/
def Color : Set (ℝ × ℝ × ℝ) :=
  {c | memberR c.1 ColorComponent ∧ memberR c.2.1 ColorComponent ∧
       memberR c.2.2 ColorComponent}

/-- Characterization of the instantiation loop: with enough fuel and the
counter not past the stop bound, it succeeds, and the result collects the
initial accumulator, both bounds, and every length `n` visited from `len`
on that satisfies `start < n < stop`. -/
lemma numericRangeGo_spec (start stop : ℕ) :
    ∀ fuel len acc, stop - len < fuel → len ≤ stop →
      ∃ S, numericRangeGo start stop fuel len acc = some S ∧
        ∀ n, n ∈ S ↔ n = start ∨ n = stop ∨ n ∈ acc ∨
          (len ≤ n ∧ n < stop ∧ start < n) := by
  intro fuel
  induction fuel with
  | zero => intro len acc h _; omega
  | succ fuel ih =>
    intro len acc h hle
    rw [numericRangeGo]
    by_cases hstop : len = stop
    · subst hstop
      rw [if_pos rfl]
      refine ⟨_, rfl, fun n => ?_⟩
      simp only [Finset.mem_insert]
      by_cases hacc : n ∈ acc
      · simp [hacc]
      · simp only [hacc, or_false, false_or]
        omega
    · have hlt : len < stop := lt_of_le_of_ne hle hstop
      rw [if_neg hstop]
      obtain ⟨S, hS, hmem⟩ :=
        ih (len + 1) (if start < len then insert len acc else acc)
          (by omega) (by omega)
      refine ⟨S, hS, fun n => ?_⟩
      rw [hmem n]
      by_cases hsl : start < len
      · rw [if_pos hsl]
        simp only [Finset.mem_insert]
        by_cases hacc : n ∈ acc
        · simp [hacc]
        · simp only [hacc, or_false, false_or]
          omega
      · rw [if_neg hsl]
        by_cases hacc : n ∈ acc
        · simp [hacc]
        · simp only [hacc, or_false, false_or]
          omega

/-- `NumericRange start stop` within the depth limit: it compiles, and the
produced set is `\x7bstart, stop\x7d` together with every natural strictly
between `start` (exclusive) and `stop` (exclusive). -/
lemma NumericRange_spec (start stop : ℕ) (h : stop < tsRecursionLimit) :
    ∃ S, NumericRange start stop = some S ∧
      ∀ n, n ∈ S ↔ n = start ∨ n = stop ∨ (n < stop ∧ start < n) := by
  obtain ⟨S, hS, hmem⟩ := numericRangeGo_spec start stop tsRecursionLimit 0 ∅
    (by unfold tsRecursionLimit at h ⊢; omega) (Nat.zero_le _)
  refine ⟨S, hS, fun n => ?_⟩
  rw [hmem n]
  simp only [Finset.not_mem_empty, false_or]
  omega

/-! Branded fallback numeric types of `src/types/primitives.ts`: each is
`number & \x7b __brand: '<Name>' \x7d` — an unconstrained number carrying a
compile-time-only nominal tag, with its intended range stated only in a
comment.  They are modelled as distinct one-field wrappers of an
unconstrained number with no invariant. -/

/-- `export type ApertureRange = number & \x7b __brand: 'ApertureRange' \x7d`
(comment: Range: 1.4 to 32.0). -/
structure ApertureRange where
  val : ℝ

/-- `export type TimeRange = number & \x7b __brand: 'TimeRange' \x7d`
(comment: Range: -10800 to 10800). -/
structure TimeRange where
  val : ℝ

/-- `export type DurationRange = number & \x7b __brand: 'DurationRange' \x7d`
(comment: Range: 0 to 10800). -/
structure DurationRange where
  val : ℝ

/-- `export type PixelDimension = number & \x7b __brand: 'PixelDimension' \x7d`
(comment: Range: 1 to 30000). -/
structure PixelDimension where
  val : ℝ

/-! Enumerations of the layer module (`declare enum` declarations).  Each
inductive lists the members in source order; `code` is the declared integer
initializer of each member, `docCode` the integer stated in the member's
doc comment (`@remarks Integer value: N`). -/

/-- `declare enum AutoOrientType` -/
inductive AutoOrientType
  | ALONG_PATH
  | CAMERA_OR_POINT_OF_INTEREST
  | CHARACTERS_TOWARD_CAMERA
  | NO_AUTO_ORIENT
deriving DecidableEq, Fintype

/-- The declared initializers of `AutoOrientType`. -/
def AutoOrientType.code : AutoOrientType → ℕ
  | .ALONG_PATH => 4213
  | .CAMERA_OR_POINT_OF_INTEREST => 4214
  | .CHARACTERS_TOWARD_CAMERA => 4215
  | .NO_AUTO_ORIENT => 4212

/-- The `@remarks Integer value:` documentation of `AutoOrientType`. -/
def AutoOrientType.docCode : AutoOrientType → ℕ
  | .ALONG_PATH => 4213
  | .CAMERA_OR_POINT_OF_INTEREST => 4214
  | .CHARACTERS_TOWARD_CAMERA => 4215
  | .NO_AUTO_ORIENT => 4212

/-- `declare enum BlendingMode` (its members carry no
`@remarks Integer value:` documentation, only the initializers). -/
inductive BlendingMode
  | ADD
  | ALPHA_ADD
  | CLASSIC_COLOR_BURN
  | CLASSIC_COLOR_DODGE
  | CLASSIC_DIFFERENCE
  | COLOR
  | COLOR_BURN
  | COLOR_DODGE
  | DANCING_DISSOLVE
  | DARKEN
  | DARKER_COLOR
  | DIFFERENCE
  | DISSOLVE
  | DIVIDE
  | EXCLUSION
  | HARD_LIGHT
  | HARD_MIX
  | HUE
  | LIGHTEN
  | LIGHTER_COLOR
  | LINEAR_BURN
  | LINEAR_DODGE
  | LINEAR_LIGHT
  | LUMINESCENT_PREMUL
  | LUMINOSITY
  | MULTIPLY
  | NORMAL
  | OVERLAY
  | PIN_LIGHT
  | SATURATION
  | SCREEN
  | SILHOUETE_ALPHA
  | SILHOUETTE_LUMA
  | SOFT_LIGHT
  | STENCIL_ALPHA
  | STENCIL_LUMA
  | SUBTRACT
  | VIVID_LIGHT
deriving DecidableEq, Fintype

/-- The declared initializers of `BlendingMode`. -/
def BlendingMode.code : BlendingMode → ℕ
  | .ADD => 5220
  | .ALPHA_ADD => 5244
  | .CLASSIC_COLOR_BURN => 5213
  | .CLASSIC_COLOR_DODGE => 5212
  | .CLASSIC_DIFFERENCE => 5209
  | .COLOR => 5216
  | .COLOR_BURN => 5227
  | .COLOR_DODGE => 5226
  | .DANCING_DISSOLVE => 5206
  | .DARKEN => 5207
  | .DARKER_COLOR => 5245
  | .DIFFERENCE => 5223
  | .DISSOLVE => 5205
  | .DIVIDE => 5246
  | .EXCLUSION => 5224
  | .HARD_LIGHT => 5218
  | .HARD_MIX => 5230
  | .HUE => 5214
  | .LIGHTEN => 5208
  | .LIGHTER_COLOR => 5243
  | .LINEAR_BURN => 5228
  | .LINEAR_DODGE => 5229
  | .LINEAR_LIGHT => 5233
  | .LUMINESCENT_PREMUL => 5221
  | .LUMINOSITY => 5217
  | .MULTIPLY => 5210
  | .NORMAL => 5204
  | .OVERLAY => 5211
  | .PIN_LIGHT => 5234
  | .SATURATION => 5215
  | .SCREEN => 5222
  | .SILHOUETE_ALPHA => 5219
  | .SILHOUETTE_LUMA => 5225
  | .SOFT_LIGHT => 5231
  | .STENCIL_ALPHA => 5235
  | .STENCIL_LUMA => 5236
  | .SUBTRACT => 5247
  | .VIVID_LIGHT => 5232

/-- `declare enum FrameBlendingType` -/
inductive FrameBlendingType
  | FRAME_MIX
  | NO_FRAME_BLEND
  | PIXEL_MOTION
deriving DecidableEq, Fintype

/-- The declared initializers of `FrameBlendingType`. -/
def FrameBlendingType.code : FrameBlendingType → ℕ
  | .FRAME_MIX => 11213
  | .NO_FRAME_BLEND => 11211
  | .PIXEL_MOTION => 11212

/-- The `@remarks Integer value:` documentation of `FrameBlendingType`. -/
def FrameBlendingType.docCode : FrameBlendingType → ℕ
  | .FRAME_MIX => 11213
  | .NO_FRAME_BLEND => 11211
  | .PIXEL_MOTION => 11212

/-- `declare enum LayerQuality` -/
inductive LayerQuality
  | BEST
  | DRAFT
  | WIREFRAME
deriving DecidableEq, Fintype

/-- The declared initializers of `LayerQuality`. -/
def LayerQuality.code : LayerQuality → ℕ
  | .BEST => 10212
  | .DRAFT => 10210
  | .WIREFRAME => 10211

/-- The `@remarks Integer value:` documentation of `LayerQuality`. -/
def LayerQuality.docCode : LayerQuality → ℕ
  | .BEST => 10212
  | .DRAFT => 10210
  | .WIREFRAME => 10211

/-- `declare enum LayerSamplingQuality` -/
inductive LayerSamplingQuality
  | BICUBIC
  | BILINEAR
deriving DecidableEq, Fintype

/-- The declared initializers of `LayerSamplingQuality`. -/
def LayerSamplingQuality.code : LayerSamplingQuality → ℕ
  | .BICUBIC => 10201
  | .BILINEAR => 10202

/-- The `@remarks Integer value:` documentation of `LayerSamplingQuality`. -/
def LayerSamplingQuality.docCode : LayerSamplingQuality → ℕ
  | .BICUBIC => 10201
  | .BILINEAR => 10202

/-- `declare enum LightType` -/
inductive LightType
  | AMBIENT
  | PARALLEL
  | POINT
  | SPOT
deriving DecidableEq, Fintype

/-- The declared initializers of `LightType`. -/
def LightType.code : LightType → ℕ
  | .AMBIENT => 4412
  | .PARALLEL => 4414
  | .POINT => 4411
  | .SPOT => 4413

/-- The `@remarks Integer value:` documentation of `LightType`. -/
def LightType.docCode : LightType → ℕ
  | .AMBIENT => 4412
  | .PARALLEL => 4414
  | .POINT => 4411
  | .SPOT => 4413

/-- `declare enum TrackMatteType` -/
inductive TrackMatteType
  | ALPHA
  | ALPHA_INVERTED
  | LUMA
  | LUMA_INVERTED
  | NO_TRACK_MATTE
deriving DecidableEq, Fintype

/-- The declared initializers of `TrackMatteType`. -/
def TrackMatteType.code : TrackMatteType → ℕ
  | .ALPHA => 11312
  | .ALPHA_INVERTED => 11313
  | .LUMA => 11314
  | .LUMA_INVERTED => 11315
  | .NO_TRACK_MATTE => 11311

/-- The `@remarks Integer value:` documentation of `TrackMatteType`. -/
def TrackMatteType.docCode : TrackMatteType → ℕ
  | .ALPHA => 11312
  | .ALPHA_INVERTED => 11313
  | .LUMA => 11314
  | .LUMA_INVERTED => 11315
  | .NO_TRACK_MATTE => 11311

/-! The claims. -/

/-- C1: for every pair of bounds lo ≤ hi within the supported span, the
type produced by `NumericRange<lo, hi>` contains an integer n iff
lo ≤ n ≤ hi: lo, hi and every integer strictly between them are members,
lo − 1 and hi + 1 are not, and in the degenerate case lo = hi the produced
set is exactly the singleton containing lo. -/
theorem numericRange_is_closed_interval (lo hi : ℕ) (h : lo ≤ hi)
    (hspan : hi < tsRecursionLimit) :
    (∀ n : ℤ, memberZ n (NumericRange lo hi) ↔ (lo : ℤ) ≤ n ∧ n ≤ (hi : ℤ)) ∧
    memberZ (lo : ℤ) (NumericRange lo hi) ∧
    memberZ (hi : ℤ) (NumericRange lo hi) ∧
    (∀ n : ℤ, (lo : ℤ) < n → n < (hi : ℤ) → memberZ n (NumericRange lo hi)) ∧
    ¬ memberZ ((lo : ℤ) - 1) (NumericRange lo hi) ∧
    ¬ memberZ ((hi : ℤ) + 1) (NumericRange lo hi) ∧
    (lo = hi → ∀ n : ℤ, memberZ n (NumericRange lo hi) ↔ n = (lo : ℤ)) := by
  obtain ⟨S, hS, hmem⟩ := NumericRange_spec lo hi hspan
  have key : ∀ n : ℤ,
      memberZ n (NumericRange lo hi) ↔ (lo : ℤ) ≤ n ∧ n ≤ (hi : ℤ) := by
    intro n
    rw [hS]
    show (∃ m ∈ S, (m : ℤ) = n) ↔ _
    constructor
    · rintro ⟨m, hm, rfl⟩
      have := (hmem m).mp hm
      omega
    · rintro ⟨h1, h2⟩
      refine ⟨n.toNat, ?_, ?_⟩
      · rw [hmem]
        omega
      · omega
  refine ⟨key, ?_, ?_, ?_, ?_, ?_, ?_⟩
  · rw [key]; omega
  · rw [key]; omega
  · intro n h1 h2
    rw [key]
    omega
  · rw [key]; omega
  · rw [key]; omega
  · intro heq n
    rw [key]
    omega

/-- Witness for C1 at lo = 1, hi = 3. -/
theorem numericRange_is_closed_interval_witness :
    (∀ n : ℤ, memberZ n (NumericRange 1 3) ↔
      ((1 : ℕ) : ℤ) ≤ n ∧ n ≤ ((3 : ℕ) : ℤ)) ∧
    memberZ ((1 : ℕ) : ℤ) (NumericRange 1 3) ∧
    memberZ ((3 : ℕ) : ℤ) (NumericRange 1 3) ∧
    (∀ n : ℤ, ((1 : ℕ) : ℤ) < n → n < ((3 : ℕ) : ℤ) →
      memberZ n (NumericRange 1 3)) ∧
    ¬ memberZ (((1 : ℕ) : ℤ) - 1) (NumericRange 1 3) ∧
    ¬ memberZ (((3 : ℕ) : ℤ) + 1) (NumericRange 1 3) ∧
    ((1 : ℕ) = (3 : ℕ) → ∀ n : ℤ,
      memberZ n (NumericRange 1 3) ↔ n = ((1 : ℕ) : ℤ)) :=
  numericRange_is_closed_interval 1 3 (by norm_num) (by decide)

/-- Modelled from the spec (the reference algorithm of the refinement
claim C2): "maintain a counter starting at the lower bound; at each step,
add the counter's current value to the result set and increment; stop once
the counter reaches the upper bound, always including both endpoints."
The loop runs for exactly the hi − counter steps it takes the counter to
reach the upper bound. -/
def specAccumulate (hi : ℕ) : ℕ → ℕ → Finset ℕ → Finset ℕ
  | 0, counter, acc => insert counter acc
  | fuel + 1, counter, acc =>
    if counter = hi then insert counter acc
    else specAccumulate hi fuel (counter + 1) (insert counter acc)

/-- Modelled from the spec: the iterative-accumulation reference algorithm
started with the counter at the lower bound and an empty result set. -/
def specRange (lo hi : ℕ) : Finset ℕ := specAccumulate hi (hi - lo) lo ∅

/-- The reference loop collects the initial accumulator together with
every value the counter takes from its current position up to the upper
bound inclusive. -/
lemma specAccumulate_spec (hi : ℕ) :
    ∀ fuel counter acc, fuel = hi - counter → counter ≤ hi →
      ∀ n, n ∈ specAccumulate hi fuel counter acc ↔
        n ∈ acc ∨ (counter ≤ n ∧ n ≤ hi) := by
  intro fuel
  induction fuel with
  | zero =>
    intro counter acc hf hle n
    have hch : counter = hi := by omega
    subst hch
    rw [specAccumulate]
    simp only [Finset.mem_insert]
    by_cases hacc : n ∈ acc
    · simp [hacc]
    · simp only [hacc, or_false, false_or]
      omega
  | succ fuel ih =>
    intro counter acc hf hle n
    have hne : counter ≠ hi := by omega
    rw [specAccumulate, if_neg hne]
    rw [ih (counter + 1) (insert counter acc) (by omega) (by omega) n]
    simp only [Finset.mem_insert]
    by_cases hacc : n ∈ acc
    · simp [hacc]
    · simp only [hacc, or_false, false_or]
      omega

/-- C2: for every lo ≤ hi within the supported span, the set produced by
the type-level recursion of `NumericRange<lo, hi>` equals the set produced
by the spec's reference iterative-accumulation algorithm. -/
theorem numericRange_refines_spec_accumulation (lo hi : ℕ) (h : lo ≤ hi)
    (hspan : hi < tsRecursionLimit) :
    NumericRange lo hi = some (specRange lo hi) := by
  obtain ⟨S, hS, hmem⟩ := NumericRange_spec lo hi hspan
  rw [hS]
  refine congrArg some (Finset.ext fun n => ?_)
  rw [hmem n, specRange, specAccumulate_spec hi (hi - lo) lo ∅ rfl h n]
  simp only [Finset.not_mem_empty, false_or]
  omega

/-- Witness for C2 at lo = 0, hi = 100 (the Percentage bounds). -/
theorem numericRange_refines_spec_accumulation_witness :
    NumericRange 0 100 = some (specRange 0 100) :=
  numericRange_refines_spec_accumulation 0 100 (by norm_num) (by decide)

set_option maxRecDepth 8192 in
/-- C3: the interval [0, 0] yields exactly the singleton containing 0, and
`ConeAngleRange = NumericRange<1, 179>` accepts the literals 1 and 179 and
every integer strictly between while rejecting 0 and 180. -/
theorem singleton_and_coneAngle_boundaries :
    NumericRange 0 0 = some {0} ∧
    memberN 1 ConeAngleRange ∧
    memberN 179 ConeAngleRange ∧
    (∀ n : ℕ, 1 < n → n < 179 → memberN n ConeAngleRange) ∧
    ¬ memberN 0 ConeAngleRange ∧
    ¬ memberN 180 ConeAngleRange := by
  obtain ⟨S, hS, hmem⟩ := NumericRange_spec 1 179 (by decide)
  have hCA : ConeAngleRange = some S := hS
  refine ⟨by decide, ?_, ?_, ?_, ?_, ?_⟩
  · rw [hCA]
    show 1 ∈ S
    rw [hmem]
    omega
  · rw [hCA]
    show 179 ∈ S
    rw [hmem]
    omega
  · intro n h1 h2
    rw [hCA]
    show n ∈ S
    rw [hmem]
    omega
  · intro hx
    rw [hCA] at hx
    have : (0 : ℕ) ∈ S := hx
    rw [hmem] at this
    omega
  · intro hx
    rw [hCA] at hx
    have : (180 : ℕ) ∈ S := hx
    rw [hmem] at this
    omega

/-- C4: in every enumeration of the layer module, each symbolic name
resolves to exactly the integer code documented for it in its declaration
(the `@remarks Integer value:` doc comments, where present); in particular
AutoOrientType.NO_AUTO_ORIENT = 4212, AutoOrientType.ALONG_PATH = 4213,
BlendingMode.NORMAL = 5204 and TrackMatteType.NO_TRACK_MATTE = 11311. -/
theorem enum_codes_match_declared_docs :
    (∀ x : AutoOrientType, x.code = x.docCode) ∧
    (∀ x : FrameBlendingType, x.code = x.docCode) ∧
    (∀ x : LayerQuality, x.code = x.docCode) ∧
    (∀ x : LayerSamplingQuality, x.code = x.docCode) ∧
    (∀ x : LightType, x.code = x.docCode) ∧
    (∀ x : TrackMatteType, x.code = x.docCode) ∧
    AutoOrientType.NO_AUTO_ORIENT.code = 4212 ∧
    AutoOrientType.ALONG_PATH.code = 4213 ∧
    BlendingMode.NORMAL.code = 5204 ∧
    TrackMatteType.NO_TRACK_MATTE.code = 11311 := by
  decide

/-- C5: within each of the seven enumerations of the layer module the
name-to-code mapping is injective, and across the seven enumerations the
sets of integer codes are pairwise disjoint. -/
theorem enum_codes_unique_and_disjoint :
    Function.Injective AutoOrientType.code ∧
    Function.Injective BlendingMode.code ∧
    Function.Injective FrameBlendingType.code ∧
    Function.Injective LayerQuality.code ∧
    Function.Injective LayerSamplingQuality.code ∧
    Function.Injective LightType.code ∧
    Function.Injective TrackMatteType.code ∧
    (∀ (x : AutoOrientType) (y : BlendingMode), x.code ≠ y.code) ∧
    (∀ (x : AutoOrientType) (y : FrameBlendingType), x.code ≠ y.code) ∧
    (∀ (x : AutoOrientType) (y : LayerQuality), x.code ≠ y.code) ∧
    (∀ (x : AutoOrientType) (y : LayerSamplingQuality), x.code ≠ y.code) ∧
    (∀ (x : AutoOrientType) (y : LightType), x.code ≠ y.code) ∧
    (∀ (x : AutoOrientType) (y : TrackMatteType), x.code ≠ y.code) ∧
    (∀ (x : BlendingMode) (y : FrameBlendingType), x.code ≠ y.code) ∧
    (∀ (x : BlendingMode) (y : LayerQuality), x.code ≠ y.code) ∧
    (∀ (x : BlendingMode) (y : LayerSamplingQuality), x.code ≠ y.code) ∧
    (∀ (x : BlendingMode) (y : LightType), x.code ≠ y.code) ∧
    (∀ (x : BlendingMode) (y : TrackMatteType), x.code ≠ y.code) ∧
    (∀ (x : FrameBlendingType) (y : LayerQuality), x.code ≠ y.code) ∧
    (∀ (x : FrameBlendingType) (y : LayerSamplingQuality), x.code ≠ y.code) ∧
    (∀ (x : FrameBlendingType) (y : LightType), x.code ≠ y.code) ∧
    (∀ (x : FrameBlendingType) (y : TrackMatteType), x.code ≠ y.code) ∧
    (∀ (x : LayerQuality) (y : LayerSamplingQuality), x.code ≠ y.code) ∧
    (∀ (x : LayerQuality) (y : LightType), x.code ≠ y.code) ∧
    (∀ (x : LayerQuality) (y : TrackMatteType), x.code ≠ y.code) ∧
    (∀ (x : LayerSamplingQuality) (y : LightType), x.code ≠ y.code) ∧
    (∀ (x : LayerSamplingQuality) (y : TrackMatteType), x.code ≠ y.code) ∧
    (∀ (x : LightType) (y : TrackMatteType), x.code ≠ y.code) := by
  refine ⟨?_, ?_, ?_, ?_, ?_, ?_, ?_, ?_, ?_, ?_, ?_, ?_, ?_, ?_, ?_, ?_,
    ?_, ?_, ?_, ?_, ?_, ?_, ?_, ?_, ?_, ?_, ?_, ?_⟩ <;> decide

/-- C6: the branded fallback types ApertureRange, TimeRange, DurationRange
and PixelDimension do not enforce their documented bounds: every number is
an admissible value of each of them, including 99999 for TimeRange, which
lies outside its documented range of -10800 to 10800. -/
theorem branded_fallbacks_unbounded :
    (∀ x : ℝ, ∃ t : ApertureRange, t.val = x) ∧
    (∀ x : ℝ, ∃ t : TimeRange, t.val = x) ∧
    (∀ x : ℝ, ∃ t : DurationRange, t.val = x) ∧
    (∀ x : ℝ, ∃ t : PixelDimension, t.val = x) ∧
    (∃ t : TimeRange, t.val = 99999 ∧ 10800 < t.val) :=
  ⟨fun x => ⟨⟨x⟩, rfl⟩, fun x => ⟨⟨x⟩, rfl⟩, fun x => ⟨⟨x⟩, rfl⟩,
   fun x => ⟨⟨x⟩, rfl⟩, ⟨⟨99999⟩, rfl, by norm_num⟩⟩

/-- C7 counterexample: the alias Percentage is declared as
`NumericRange<0, 100>`, whose span 100 − 0 = 100 is not a single- or
double-digit number, so not every instantiation keeps its span at most
99. -/
theorem rangeAlias_span_exceeds_99 :
    ("Percentage", 0, 100) ∈ rangeAliases ∧
    rangeAliases.all (fun e => e.2.2 - e.2.1 ≤ 99) = false := by
  decide

/-- C7 as amended: every instantiation of the range-constraint utility in
the declarations keeps its span hi − lo at most 178 (the largest declared
span, that of ConeAngleRange; Percentage and OpacityRange have span 100,
so "at most 99" fails but a three-digit cap of 178 holds). -/
theorem rangeAlias_spans_at_most_178 :
    rangeAliases.all (fun e => e.2.2 - e.2.1 ≤ 178) = true := by
  decide

/-- C8: deriving the interval type twice for the same bounds is
idempotent: two applications of NumericRange to the same pair of bounds
produce the same, interchangeable set. -/
theorem numericRange_idempotent (lo hi : ℕ) (h : lo ≤ hi) (S1 S2 : Finset ℕ)
    (h1 : NumericRange lo hi = some S1) (h2 : NumericRange lo hi = some S2) :
    S1 = S2 ∧ ∀ n : ℕ, n ∈ S1 ↔ n ∈ S2 := by
  rw [h1] at h2
  have hEq : S1 = S2 := Option.some.inj h2
  exact ⟨hEq, fun n => by rw [hEq]⟩

/-- Witness for C8 at lo = 0, hi = 0. -/
theorem numericRange_idempotent_witness :
    ({0} : Finset ℕ) = {0} ∧
    ∀ n : ℕ, n ∈ ({0} : Finset ℕ) ↔ n ∈ ({0} : Finset ℕ) :=
  numericRange_idempotent 0 0 (le_refl 0) {0} {0} (by decide) (by decide)

/-- C9: for natural-number bounds with lo > hi (reversed bounds, within
the supported span), `NumericRange<lo, hi>` produces exactly the
two-element set containing lo and hi: it is neither empty nor a rejection,
and contains no other value. -/
theorem numericRange_reversed_bounds (lo hi : ℕ) (h : hi < lo)
    (hspan : hi < tsRecursionLimit) :
    ∃ S, NumericRange lo hi = some S ∧ lo ∈ S ∧ hi ∈ S ∧ S.Nonempty ∧
      ∀ n : ℕ, n ∈ S ↔ n = lo ∨ n = hi := by
  obtain ⟨S, hS, hmem⟩ := NumericRange_spec lo hi hspan
  refine ⟨S, hS, ?_, ?_, ?_, fun n => ?_⟩
  · rw [hmem]
    omega
  · rw [hmem]
    omega
  · exact ⟨lo, by rw [hmem]; omega⟩
  · rw [hmem]
    omega

/-- Witness for C9 at lo = 5, hi = 3. -/
theorem numericRange_reversed_bounds_witness :
    ∃ S, NumericRange 5 3 = some S ∧ 5 ∈ S ∧ 3 ∈ S ∧ S.Nonempty ∧
      ∀ n : ℕ, n ∈ S ↔ n = 5 ∨ n = 3 :=
  numericRange_reversed_bounds 5 3 (by norm_num) (by decide)

/-- C10: `ColorComponent = NumericRange<0, 1>` contains exactly the two
numbers 0 and 1, so a Color triple admits only components equal to 0 or 1;
the fractional triple (0.5, 0.5, 0.5) is not an admissible Color even
though the documented color range is the continuous interval 0.0 to 1.0. -/
theorem colorComponent_is_zero_or_one :
    (∀ x : ℝ, memberR x ColorComponent ↔ x = 0 ∨ x = 1) ∧
    ((0.5 : ℝ), (0.5 : ℝ), (0.5 : ℝ)) ∉ Color := by
  obtain ⟨S, hS, hmem⟩ := NumericRange_spec 0 1 (by decide)
  have hCC : ColorComponent = some S := hS
  have key : ∀ x : ℝ, memberR x ColorComponent ↔ x = 0 ∨ x = 1 := by
    intro x
    rw [hCC]
    show (∃ m ∈ S, (m : ℝ) = x) ↔ _
    constructor
    · rintro ⟨m, hm, rfl⟩
      rw [hmem] at hm
      have : m = 0 ∨ m = 1 := by omega
      rcases this with rfl | rfl
      · left
        norm_num
      · right
        norm_num
    · rintro (rfl | rfl)
      · exact ⟨0, by rw [hmem]; omega, by norm_num⟩
      · exact ⟨1, by rw [hmem]; omega, by norm_num⟩
  refine ⟨key, fun hc => ?_⟩
  have h5 : memberR (0.5 : ℝ) ColorComponent := hc.1
  rw [key] at h5
  norm_num at h5
